import Mathlib

/-!
# Verification of the bionext PubMed entity-graph pipeline (`src/app.py`)

Shallow embedding of the core logic of `app.py`:

* `construct_query` — PubMed query string builder,
* `fetch_abstracts` — abstract fetcher with its error handling
  (the external Entrez calls are modelled as `Except`-valued collaborators),
* `save_to_excel` — row construction for the exported table,
* `get_bc5cdr_entities` / `process_abstracts_from_excel` — entity
  extraction and relationship building (the spaCy NER model is external;
  an abstract is represented by the list of tagged spans the model
  returns for it),
* `visualize_graph_interactive` — node/edge assembly of the pyvis graph
  (layout and HTML post-processing are external and not modelled),
* the relationship allow-list parsing done in the Streamlit UI layer.

Python dicts are modelled as association lists keyed by `String`
(insertion order preserved, keys unique by construction); Python sets of
titles are modelled as `Finset String`.
-/

namespace Bionext

/-! ## Python string primitives

The Python `str` methods the code uses, modelled over the character
list of a `String` by structural recursion (so that all concrete
computations reduce in the kernel). A Python `str` is a sequence of
code points, which `String.data : List Char` models directly. -/

/-- The characters Python `str.strip()` removes: ASCII whitespace. -/
def pyIsSpace (c : Char) : Bool :=
  c = ' ' || c = '\t' || c = '\n' || c = '\r' || c = '\x0b' || c = '\x0c'

/-- Helper for `pySplit`: split a character list on a separator
character, accumulating the current field in reverse. -/
def splitCharsAux (sep : Char) : List Char → List Char → List (List Char)
  | [], acc => [acc.reverse]
  | c :: cs, acc =>
    if c = sep then acc.reverse :: splitCharsAux sep cs []
    else splitCharsAux sep cs (c :: acc)

/-- Python `s.split(sep)` for a one-character separator: always yields
at least one field; `"".split(sep) == [""]`. -/
def pySplit (sep : Char) (s : String) : List String :=
  (splitCharsAux sep s.data []).map String.mk

/-- Python `s.strip()`: drop whitespace from both ends. -/
def pyStrip (s : String) : String :=
  String.mk (((s.data.dropWhile pyIsSpace).reverse.dropWhile pyIsSpace).reverse)

/-- Python `s.lower()` (ASCII case mapping, which covers the entity
labels and abstract text this code handles). -/
def pyLower (s : String) : String := String.mk (s.data.map Char.toLower)

/-- Python `s.upper()` (ASCII case mapping). -/
def pyUpper (s : String) : String := String.mk (s.data.map Char.toUpper)

/-- Python `sep.join(parts)`. -/
def pyJoin (sep : String) : List String → String
  | [] => ""
  | [x] => x
  | x :: y :: xs => x ++ sep ++ pyJoin sep (y :: xs)

/-- Python `c in s` for a one-character needle. -/
def pyContainsChar (s : String) (c : Char) : Bool := s.data.contains c

/-! ## Query builder (`construct_query`, app.py lines 45–56) -/

/-- The `article_types` dict of `construct_query`, as an association list. -/
def article_types : List (String × String) :=
  [("Clinical Trials", "Clinical Trial[pt]"),
   ("Meta-Analysis", "Meta-Analysis[pt]"),
   ("Randomized Controlled Trials", "Randomized Controlled Trial[pt]"),
   ("Reviews", "Review[pt]")]

/-- `article_types.get(choice, "")`. -/
def articleTypeFilter (choice : String) : String :=
  (article_types.lookup choice).getD ""

/-- `construct_query(search_term, mesh_term, choice)`.
`if mesh_term:` is Python truthiness on a string, i.e. non-emptiness. -/
def construct_query (search_term mesh_term choice : String) : String :=
  let query := "(" ++ search_term ++ ") AND " ++ articleTypeFilter choice
  if mesh_term ≠ "" then query ++ " AND " ++ mesh_term ++ "[MeSH Terms]"
  else query

/-! ## Bibliographic records and the abstract fetcher (lines 58–91) -/

/-- A raw medline-style record, with the five keys the code reads.
A missing key is `none` (Python `article.get(k, default)` takes the
default branch). `AU` is a list of author names when present. -/
structure MedlineRecord where
  TI : Option String
  AU : Option (List String)
  AB : Option String
  DP : Option String
  TA : Option String
deriving Repr, DecidableEq

/-- Result of `fetch_abstracts`: the user-visible messages written with
`st.write` in the `except` branch, and the returned list of articles. -/
structure FetchOutcome where
  messages : List String
  articles : List MedlineRecord
deriving Repr, DecidableEq

/-- `fetch_abstracts(query, num_articles, email)` (lines 58–75).

The two external Entrez calls are collaborators: `esearch` is the
outcome of `Entrez.esearch`/`Entrez.read` (yielding the `IdList`), and
`efetch` the outcome of `Entrez.efetch`/`Medline.parse` on those ids;
`Except.error` stands for a raised exception. The Python `try` block
spans both calls, so an exception from either is caught by the single
`except`, which writes an error message and returns `[]`; an empty id
list returns `[]` before `efetch` is attempted. -/
def fetch_abstracts (esearch : Except String (List String))
    (efetch : List String → Except String (List MedlineRecord)) : FetchOutcome :=
  match esearch with
  | .error e => ⟨["Error fetching articles: " ++ e], []⟩
  | .ok ids =>
    if ids.isEmpty then ⟨[], []⟩
    else
      match efetch ids with
      | .error e => ⟨["Error fetching articles: " ++ e], []⟩
      | .ok articles => ⟨[], articles⟩

/-! ## Tabular exporter (`save_to_excel`, lines 77–91) -/

/-- One row of the exported table, with the five columns. -/
structure ExportRow where
  title : String
  authors : String
  abstract : String
  pubDate : String
  journal : String
deriving Repr, DecidableEq

/-- `', '.join(article.get('AU', 'No authors'))`: when `AU` is present
it is a list of strings and `join` intercalates them; when `AU` is
missing, `join` iterates the *characters* of the default string
`'No authors'`, because a Python `str` is an iterable of 1-character
strings. -/
def authorsCell (au : Option (List String)) : String :=
  match au with
  | some aus => pyJoin ", " aus
  | none => pyJoin ", " ("No authors".data.map (fun c => String.mk [c]))

/-- The row `save_to_excel` builds for one article (lines 79–85). -/
def exportRow (article : MedlineRecord) : ExportRow :=
  { title := article.TI.getD "No title"
  , authors := authorsCell article.AU
  , abstract := article.AB.getD "No abstract"
  , pubDate := article.DP.getD "No date"
  , journal := article.TA.getD "No journal" }

/-- `save_to_excel` builds one row per article, in order. -/
def save_to_excel (articles : List MedlineRecord) : List ExportRow :=
  articles.map exportRow

/-! ## Relationship allow-list parsing (UI layer, line 192)

`[tuple(rel.strip().split("-")) for rel in allowed_rel_input.split(",") if "-" in rel]`.
A Python tuple of variable arity is modelled as a `List String`. -/

/-- Parse the comma-separated relationship allow-list input. -/
def parse_allowed_relationships (input : String) : List (List String) :=
  ((pySplit ',' input).filter (fun rel => pyContainsChar rel '-')).map
    (fun rel => pySplit '-' (pyStrip rel))

/-! ## Entity extraction (`get_bc5cdr_entities`, lines 94–96)

The spaCy pipeline `nlp` is an external collaborator: "given text,
return a list of (span text, span label) tagged spans". An abstract is
therefore represented by the list of tagged spans `nlp` produces for
its text. -/

/-- One tagged span returned by the NER collaborator: `ent.text` and
`ent.label_`. -/
structure TaggedSpan where
  text : String
  label : String
deriving Repr, DecidableEq

/-- `get_bc5cdr_entities(sent, entity_types)`: keep the spans whose
label is in `entity_types`, lowercasing the text. -/
def get_bc5cdr_entities (spans : List TaggedSpan) (entity_types : List String) :
    List (String × String) :=
  (spans.filter (fun ent => entity_types.contains ent.label)).map
    (fun ent => (pyLower ent.text, ent.label))

/-! ## Corpus-wide entity mapping and relationship building
(`process_abstracts_from_excel`, lines 98–115) -/

/-- The value stored in `entity_to_titles` for one entity text:
`{"titles": set(), "type": entity_type}`. -/
structure EntityInfo where
  titles : Finset String
  type : String
deriving DecidableEq

/-- The `entity_to_titles` dict: an association list keyed by the
normalized entity text, in insertion order, keys unique. -/
abbrev EntityMap := List (String × EntityInfo)

/-- One iteration of the `for entity_text, entity_type in entities`
loop (lines 103–106): create the entry with an empty title set and the
current type only if the text is not yet a key, then add the row's
title to the entry's title set. -/
def processEntity (m : EntityMap) (text ty title : String) : EntityMap :=
  let m' := if (m.lookup text).isSome then m else m ++ [(text, ⟨∅, ty⟩)]
  m'.map (fun p => if p.1 = text then (p.1, ⟨insert title p.2.titles, p.2.type⟩) else p)

/-- `itertools.combinations(l, 2)`: the pairs `(l[i], l[j])` with
`i < j`, enumerated in lexicographic order of positions. -/
def combinations2 {α : Type} : List α → List (α × α)
  | [] => []
  | x :: xs => xs.map (fun y => (x, y)) ++ combinations2 xs

/-- One edge row appended to `rows` (lines 110–113). -/
structure EdgeRow where
  source : String
  target : String
  edge : String
deriving Repr, DecidableEq

/-- The allow-list test of line 109:
`(t1, t2) in allowed_relationships or (t2, t1) in allowed_relationships`. -/
def allowedPair (allowed : List (String × String)) (t1 t2 : String) : Bool :=
  allowed.contains (t1, t2) || allowed.contains (t2, t1)

/-- The `for entity1, entity2 in itertools.combinations(entities, 2)`
loop (lines 108–113): for each qualifying pair, an edge row with the
label `f"{entity1[1]}_to_{entity2[1]}"` in enumeration order. -/
def rowEdges (entities : List (String × String))
    (allowed : List (String × String)) : List EdgeRow :=
  (combinations2 entities).filterMap (fun p =>
    if allowedPair allowed p.1.2 p.2.2 then
      some ⟨p.1.1, p.2.1, p.1.2 ++ "_to_" ++ p.2.2⟩
    else none)

/-- One row of `df[['Abstract', 'Title']].dropna()`: the abstract is
represented by its NER output (list of tagged spans), plus the title. -/
structure AbstractRow where
  spans : List TaggedSpan
  title : String
deriving Repr, DecidableEq

/-- Processing of one abstract row: fold its extracted entities into
the entity map, then append its qualifying pair edges. -/
def processRow (acc : List EdgeRow × EntityMap) (r : AbstractRow)
    (entity_types : List String) (allowed : List (String × String)) :
    List EdgeRow × EntityMap :=
  let entities := get_bc5cdr_entities r.spans entity_types
  let m := entities.foldl (fun m e => processEntity m e.1 e.2 r.title) acc.2
  (acc.1 ++ rowEdges entities allowed, m)

/-- `process_abstracts_from_excel(df, entity_types, allowed_relationships)`
(lines 98–115): returns the flat edge list (the `kg_df` rows) and the
corpus-wide `entity_to_titles` mapping. -/
def process_abstracts_from_excel (rows : List AbstractRow)
    (entity_types : List String) (allowed : List (String × String)) :
    List EdgeRow × EntityMap :=
  rows.foldl (fun acc r => processRow acc r entity_types allowed) ([], [])

/-! ## Graph assembly (`visualize_graph_interactive`, lines 117–131)

Only the node/edge assembly is modelled; force-atlas layout, HTML
generation and the viewport CSS post-processing are external. -/

/-- The `entity_colors` dict (lines 119–122). -/
def entity_colors : List (String × String) :=
  [("CHEMICAL", "green"), ("DISEASE", "red")]

/-- `entity_colors.get(details["type"].upper(), "#999999")`. -/
def nodeColor (ty : String) : String :=
  (entity_colors.lookup (pyUpper ty)).getD "#999999"

/-- One node added with `net.add_node(entity, title=..., color=...)`.
The tooltip `"<br>".join(details["titles"])` joins a Python set whose
iteration order is unspecified, so the tooltip keeps the set itself. -/
structure GraphNode where
  id : String
  tooltip : Finset String
  color : String
deriving DecidableEq

/-- The assembled graph: nodes in insertion order, then edges. -/
structure Graph where
  nodes : List GraphNode
  edges : List EdgeRow
deriving DecidableEq

/-- `net.get_nodes()`: the ids of the nodes added so far. -/
def Graph.nodeIds (g : Graph) : List String := g.nodes.map GraphNode.id

/-- The assembly part of `visualize_graph_interactive` (lines 124–131):
one node per key of `entity_to_titles`, then one edge per `kg_df` row
whose source and target are both existing nodes. -/
def visualize_graph_interactive (kg : List EdgeRow) (entity_to_titles : EntityMap) :
    Graph :=
  let nodes := entity_to_titles.map (fun p =>
    { id := p.1, tooltip := p.2.titles, color := nodeColor p.2.type : GraphNode })
  let nodeIds := nodes.map GraphNode.id
  let edges := kg.filter (fun row =>
    nodeIds.contains row.source && nodeIds.contains row.target)
  ⟨nodes, edges⟩

/-! ## Execution-order views of an extraction run -/

/-- The per-mention stream of one extraction run, in processing order:
one `(text, type, title)` triple per kept span, abstracts in row order. -/
def mentionStream (rows : List AbstractRow) (entity_types : List String) :
    List (String × String × String) :=
  rows.flatMap (fun r => (get_bc5cdr_entities r.spans entity_types).map
    (fun e => (e.1, e.2, r.title)))

/-- Folding the entity-accumulation loop body over a mention stream. -/
def foldStream (m : EntityMap) (s : List (String × String × String)) : EntityMap :=
  s.foldl (fun m e => processEntity m e.1 e.2.1 e.2.2) m

/-- The set of titles paired with text `k` in a mention stream. -/
def titlesIn (s : List (String × String × String)) (k : String) : Finset String :=
  ((s.filter (fun e => e.1 == k)).map (fun e => e.2.2)).toFinset

/-- The type paired with the first occurrence of text `k` in a stream. -/
def firstTypeIn (s : List (String × String × String)) (k : String) : Option String :=
  (s.find? (fun e => e.1 == k)).map (fun e => e.2.1)

/-! ## Helper lemmas on the entity map -/

theorem lookup_cons (k a : String) (b : EntityInfo) (l : EntityMap) :
    List.lookup k ((a, b) :: l) = if k = a then some b else List.lookup k l := by
  simp only [List.lookup]
  by_cases h : k = a
  · simp [h]
  · have hb : (k == a) = false := by simpa using h
    simp [hb, h]

theorem lookup_map_bump (m : EntityMap) (text title k : String) :
    (m.map (fun p =>
        if p.1 = text then (p.1, ⟨insert title p.2.titles, p.2.type⟩) else p)).lookup k
      = if k = text then
          (m.lookup text).map (fun i => ⟨insert title i.titles, i.type⟩)
        else m.lookup k := by
  induction m with
  | nil => by_cases h : k = text <;> simp [h]
  | cons p rest ih =>
    obtain ⟨a, b⟩ := p
    by_cases hat : a = text
    · subst hat
      by_cases hka : k = a <;>
        simp [lookup_cons, hka, ih]
    · have hhead :
          (if a = text then (a, (⟨insert title b.titles, b.type⟩ : EntityInfo)) else (a, b))
            = (a, b) := by
        simp [hat]
      have hta : ¬ text = a := fun h => hat h.symm
      by_cases hka : k = a
      · subst hka
        simp [lookup_cons, hhead, hat, hta, ih]
      · simp [lookup_cons, hhead, hka, hta, ih]

theorem lookup_append_single (m : EntityMap) (t : String) (v : EntityInfo) (k : String) :
    (m ++ [(t, v)]).lookup k = (m.lookup k).or (if k = t then some v else none) := by
  induction m with
  | nil => by_cases h : k = t <;> simp [lookup_cons, h]
  | cons p rest ih =>
    obtain ⟨a, b⟩ := p
    by_cases hka : k = a <;> simp [lookup_cons, hka, ih]

theorem lookup_processEntity (m : EntityMap) (text ty title k : String) :
    (processEntity m text ty title).lookup k =
      if k = text then
        some (match m.lookup text with
              | some i => ⟨insert title i.titles, i.type⟩
              | none => ⟨{title}, ty⟩)
      else m.lookup k := by
  unfold processEntity
  by_cases hs : (m.lookup text).isSome
  · obtain ⟨i, hi⟩ := Option.isSome_iff_exists.mp hs
    by_cases hk : k = text <;> simp [hi, lookup_map_bump, hk]
  · have hnone : m.lookup text = none := Option.not_isSome_iff_eq_none.mp hs
    by_cases hk : k = text <;>
      simp [hnone, lookup_map_bump, lookup_append_single, hk]

theorem lookup_isSome_iff_mem_keys (m : EntityMap) (k : String) :
    (m.lookup k).isSome ↔ k ∈ m.map Prod.fst := by
  induction m with
  | nil => simp
  | cons p rest ih =>
    obtain ⟨a, b⟩ := p
    by_cases h : k = a <;> simp [lookup_cons, h, ih]

/-! ## Helper lemmas on mention streams -/

theorem titlesIn_nil (k : String) : titlesIn [] k = ∅ := rfl

theorem titlesIn_cons (e : String × String × String)
    (s : List (String × String × String)) (k : String) :
    titlesIn (e :: s) k =
      if e.1 = k then insert e.2.2 (titlesIn s k) else titlesIn s k := by
  by_cases h : e.1 = k <;> simp [titlesIn, List.filter_cons, h]

theorem firstTypeIn_nil (k : String) : firstTypeIn [] k = none := rfl

theorem firstTypeIn_cons (e : String × String × String)
    (s : List (String × String × String)) (k : String) :
    firstTypeIn (e :: s) k = if e.1 = k then some e.2.1 else firstTypeIn s k := by
  by_cases h : e.1 = k <;> simp [firstTypeIn, List.find?_cons, h]

/-- Characterization of the entity map built by folding a mention
stream: an existing entry keeps its type and accumulates the stream's
titles for its text; a fresh text gets the type of its first occurrence
and exactly the stream's titles; an unmentioned text stays absent. -/
theorem lookup_foldStream (s : List (String × String × String)) (m : EntityMap)
    (k : String) :
    (foldStream m s).lookup k =
      match m.lookup k with
      | some i => some ⟨i.titles ∪ titlesIn s k, i.type⟩
      | none =>
        match firstTypeIn s k with
        | some ty => some ⟨titlesIn s k, ty⟩
        | none => none := by
  induction s generalizing m with
  | nil =>
    rw [titlesIn_nil, firstTypeIn_nil]
    cases hm : m.lookup k with
    | none => simp [foldStream, hm]
    | some i => simp [foldStream, hm]
  | cons e s ih =>
    obtain ⟨t, ty, ti⟩ := e
    have hstep : foldStream m ((t, ty, ti) :: s) = foldStream (processEntity m t ty ti) s := rfl
    rw [hstep, ih, lookup_processEntity, titlesIn_cons, firstTypeIn_cons]
    by_cases hkt : k = t
    · rw [if_pos hkt, if_pos hkt.symm, if_pos hkt.symm]
      cases hm : m.lookup k with
      | some i =>
        have hmt : m.lookup t = some i := by rw [← hkt]; exact hm
        rw [hmt]
        simp [Finset.insert_union, Finset.union_insert]
      | none =>
        have hmt : m.lookup t = none := by rw [← hkt]; exact hm
        rw [hmt]
        have hsing : ({ti} : Finset String) ∪ titlesIn s k = insert ti (titlesIn s k) := by
          ext x; simp [or_comm]
        simp [hsing]
    · rw [if_neg hkt, if_neg (fun h => hkt h.symm), if_neg (fun h => hkt h.symm)]

/-! ## Decomposition of an extraction run -/

theorem foldl_processRow (rows : List AbstractRow) (types : List String)
    (allowed : List (String × String)) (acc : List EdgeRow × EntityMap) :
    rows.foldl (fun acc r => processRow acc r types allowed) acc =
      (acc.1 ++ rows.flatMap (fun r => rowEdges (get_bc5cdr_entities r.spans types) allowed),
       foldStream acc.2 (mentionStream rows types)) := by
  induction rows generalizing acc with
  | nil => simp [mentionStream, foldStream]
  | cons r rest ih =>
    rw [List.foldl_cons, ih]
    simp [processRow, mentionStream, foldStream, List.foldl_append, List.foldl_map]

/-- An extraction run is the flat concatenation of the per-abstract
edge lists, paired with the fold of the mention stream into an
initially empty entity map. -/
theorem process_abstracts_eq (rows : List AbstractRow) (types : List String)
    (allowed : List (String × String)) :
    process_abstracts_from_excel rows types allowed =
      (rows.flatMap (fun r => rowEdges (get_bc5cdr_entities r.spans types) allowed),
       foldStream [] (mentionStream rows types)) := by
  simpa [process_abstracts_from_excel] using foldl_processRow rows types allowed ([], [])

/-! ## Combinations and edge lists -/

theorem mem_combinations2 {α : Type} (l : List α) (p : α × α) :
    p ∈ combinations2 l ↔ List.Sublist [p.1, p.2] l := by
  obtain ⟨p₁, p₂⟩ := p
  induction l with
  | nil => simp [combinations2]
  | cons x xs ih =>
    simp only [combinations2, List.mem_append, List.mem_map, ih]
    constructor
    · rintro (⟨y, hy, heq⟩ | h)
      · injection heq with h1 h2
        subst h1; subst h2
        exact (List.singleton_sublist.mpr hy).cons₂ x
      · exact h.cons x
    · intro h
      cases h with
      | cons _ h' => exact Or.inr h'
      | cons₂ _ h' => exact Or.inl ⟨p₂, List.singleton_sublist.mp h', rfl⟩

theorem length_combinations2 {α : Type} (l : List α) :
    (combinations2 l).length = l.length.choose 2 := by
  induction l with
  | nil => simp [combinations2]
  | cons x xs ih =>
    simp [combinations2, ih, Nat.choose_succ_succ, Nat.add_comm]

theorem mem_rowEdges (entities : List (String × String))
    (allowed : List (String × String)) (e : EdgeRow) :
    e ∈ rowEdges entities allowed ↔
      ∃ p ∈ combinations2 entities, allowedPair allowed p.1.2 p.2.2 = true ∧
        e = ⟨p.1.1, p.2.1, p.1.2 ++ "_to_" ++ p.2.2⟩ := by
  simp only [rowEdges, List.mem_filterMap]
  constructor
  · rintro ⟨p, hp, hf⟩
    by_cases h : allowedPair allowed p.1.2 p.2.2
    · refine ⟨p, hp, h, ?_⟩
      simp only [h, if_true, Option.some.injEq] at hf
      exact hf.symm
    · simp [h] at hf
  · rintro ⟨p, hp, h, rfl⟩
    exact ⟨p, hp, by simp [h]⟩

/-! ## Membership in the mention stream and the final entity map -/

theorem mem_mentionStream (rows : List AbstractRow) (types : List String)
    (r : AbstractRow) (x ty : String) (hr : r ∈ rows)
    (hx : (x, ty) ∈ get_bc5cdr_entities r.spans types) :
    (x, ty, r.title) ∈ mentionStream rows types := by
  simp only [mentionStream, List.mem_flatMap]
  exact ⟨r, hr, List.mem_map.mpr ⟨(x, ty), hx, rfl⟩⟩

theorem firstTypeIn_isSome_of_mem (s : List (String × String × String))
    (k ty t : String) (h : (k, ty, t) ∈ s) : (firstTypeIn s k).isSome := by
  have hfind : (s.find? (fun e => e.1 == k)).isSome :=
    List.find?_isSome.mpr ⟨(k, ty, t), h, by simp⟩
  obtain ⟨a, ha⟩ := Option.isSome_iff_exists.mp hfind
  simp [firstTypeIn, ha]

theorem mem_titlesIn (s : List (String × String × String)) (k ty t : String)
    (h : (k, ty, t) ∈ s) : t ∈ titlesIn s k := by
  simp only [titlesIn, List.mem_toFinset, List.mem_map]
  exact ⟨(k, ty, t), List.mem_filter.mpr ⟨h, by simp⟩, rfl⟩

/-- Every text mentioned anywhere in the stream is a key of the final
entity map. -/
theorem lookup_final_isSome (rows : List AbstractRow) (types : List String)
    (allowed : List (String × String)) (k ty t : String)
    (h : (k, ty, t) ∈ mentionStream rows types) :
    ((process_abstracts_from_excel rows types allowed).2.lookup k).isSome := by
  rw [process_abstracts_eq]
  simp only
  rw [lookup_foldStream]
  have hk : (firstTypeIn (mentionStream rows types) k).isSome :=
    firstTypeIn_isSome_of_mem _ k ty t h
  obtain ⟨ty', hty'⟩ := Option.isSome_iff_exists.mp hk
  simp [hty']

/-! ## Substring occurrence (Python `sub in s`) -/

/-- Whether `n` is a leading segment of `l` (on character lists). -/
def leadsChars : List Char → List Char → Bool
  | [], _ => true
  | _ :: _, [] => false
  | a :: as, b :: bs => a = b && leadsChars as bs

/-- Whether `n` occurs contiguously somewhere in `hay`. -/
def containsSub : List Char → List Char → Bool
  | n, [] => n.isEmpty
  | n, c :: t => leadsChars n (c :: t) || containsSub n t

/-- Python `sub in s` for strings. -/
def pyContainsStr (s sub : String) : Bool := containsSub sub.data s.data

theorem leadsChars_append (n rest : List Char) : leadsChars n (n ++ rest) = true := by
  induction n with
  | nil => rfl
  | cons a as ih => simp [leadsChars, ih]

theorem containsSub_of_append (pre n post : List Char) :
    containsSub n (pre ++ (n ++ post)) = true := by
  induction pre with
  | nil =>
    cases n with
    | nil => cases post <;> simp [containsSub, leadsChars]
    | cons a as =>
      simp only [containsSub, Bool.or_eq_true]
      exact Or.inl (by simpa using leadsChars_append (a :: as) post)
  | cons c cs ih => simp [containsSub, ih]

theorem pyContainsStr_of_append (pre n post : String) :
    pyContainsStr (pre ++ (n ++ post)) n = true := by
  simpa [pyContainsStr, String.data_append] using
    containsSub_of_append pre.data n.data post.data

/-! # Claims -/

/-- C2: the claim says every missing field is exported as the sentinel
string `No <field>`. The code intends this, but for the Authors column
it computes `', '.join('No authors')`, which joins the characters of
the default string; a record with no `AU` key therefore gets the cell
`"N, o,  , a, u, t, h, o, r, s"` instead of `"No authors"`. The other
four fields do get their sentinels, and present authors are joined by
`", "`. -/
theorem claim_C2_bug_eval :
    exportRow ⟨none, none, none, none, none⟩ =
      { title := "No title", authors := "N, o,  , a, u, t, h, o, r, s",
        abstract := "No abstract", pubDate := "No date", journal := "No journal" }
    ∧ "N, o,  , a, u, t, h, o, r, s" ≠ "No authors"
    ∧ authorsCell (some ["Smith J", "Doe A"]) = "Smith J, Doe A" := by
  exact ⟨rfl, by decide, rfl⟩

/-- C4 (counterexample): the claim's "contains ` AND M[MeSH Terms]` iff
M is non-empty" fails in the only-if direction: with the search term
`"x AND [MeSH Terms]"`, article type `"Clinical Trials"` and empty M,
the query contains ` AND [MeSH Terms]` (which is ` AND M[MeSH Terms]`
for the empty M) even though M is empty. -/
theorem claim_C4_counterexample :
    pyContainsStr (construct_query "x AND [MeSH Terms]" "" "Clinical Trials")
        (" AND " ++ "" ++ "[MeSH Terms]") = true
    ∧ ("" : String) = "" := by
  exact ⟨by decide, rfl⟩

/-- C4 (amended): for every search term S, controlled term M and
article type among the four fixed categories, the built query is
exactly `(S) AND <filter>` followed, when M is non-empty, by
` AND M[MeSH Terms]`; hence it contains `(S) AND` followed by the
filter, and contains ` AND M[MeSH Terms]` whenever M is non-empty
(the converse holds only when S itself avoids that substring); the
"aspirin"/"Clinical Trials"/empty-M instance is exactly
`(aspirin) AND Clinical Trial[pt]`. -/
theorem claim_C4_amended (S M choice filt : String)
    (hfilt : (choice, filt) ∈ article_types) :
    construct_query S M choice =
      "(" ++ S ++ ") AND " ++ filt ++
        (if M = "" then "" else " AND " ++ M ++ "[MeSH Terms]")
    ∧ (M ≠ "" →
        pyContainsStr (construct_query S M choice)
          (" AND " ++ M ++ "[MeSH Terms]") = true)
    ∧ construct_query "aspirin" "" "Clinical Trials" = "(aspirin) AND Clinical Trial[pt]" := by
  have hlook : articleTypeFilter choice = filt := by
    fin_cases hfilt <;> rfl
  constructor
  · by_cases hM : M = "" <;>
      simp [construct_query, hlook, hM, String.append_assoc]
  constructor
  · intro hM
    have hq : construct_query S M choice =
        ("(" ++ S ++ ") AND " ++ filt) ++ ((" AND " ++ M ++ "[MeSH Terms]") ++ "") := by
      simp [construct_query, hlook, hM, String.append_assoc]
    rw [hq]
    exact pyContainsStr_of_append _ _ _
  · rfl

/-- Witness for C4 at the concrete inputs S = "aspirin", M = "mesh",
article type "Reviews". -/
theorem claim_C4_witness :
    construct_query "aspirin" "mesh" "Reviews" =
      "(" ++ "aspirin" ++ ") AND " ++ "Review[pt]" ++
        (if ("mesh" : String) = "" then "" else " AND " ++ "mesh" ++ "[MeSH Terms]")
    ∧ pyContainsStr (construct_query "aspirin" "mesh" "Reviews")
        (" AND " ++ "mesh" ++ "[MeSH Terms]") = true
    ∧ construct_query "aspirin" "" "Clinical Trials" = "(aspirin) AND Clinical Trial[pt]" := by
  have h := claim_C4_amended "aspirin" "mesh" "Reviews" "Review[pt]" (by decide)
  exact ⟨h.1, h.2.1 (by decide), h.2.2⟩

/-- C7: with zero identifiers the fetcher returns an empty article
sequence and no error message; an exception from the search call or
from the fetch call is caught, reported as a user-visible message, and
yields an empty article sequence. -/
theorem claim_C7 :
    (∀ efetch, fetch_abstracts (Except.ok []) efetch = ⟨[], []⟩)
    ∧ (∀ e efetch,
        fetch_abstracts (Except.error e) efetch =
          ⟨["Error fetching articles: " ++ e], []⟩)
    ∧ (∀ ids e efetch, ids ≠ [] → efetch ids = Except.error e →
        fetch_abstracts (Except.ok ids) efetch =
          ⟨["Error fetching articles: " ++ e], []⟩) := by
  refine ⟨fun _ => rfl, fun _ _ => rfl, fun ids e efetch hne hfe => ?_⟩
  have hemp : ids.isEmpty = false := by
    cases ids with
    | nil => exact absurd rfl hne
    | cons a l => rfl
  simp [fetch_abstracts, hemp, hfe]

/-- Witness for C7 at concrete inputs: an empty id list, a failing
search call, and a failing fetch call. -/
theorem claim_C7_witness :
    fetch_abstracts (Except.ok []) (fun _ => Except.ok []) = ⟨[], []⟩
    ∧ fetch_abstracts (Except.error "net down") (fun _ => Except.ok []) =
        ⟨["Error fetching articles: net down"], []⟩
    ∧ fetch_abstracts (Except.ok ["1"]) (fun _ => Except.error "bad xml") =
        ⟨["Error fetching articles: bad xml"], []⟩ :=
  ⟨claim_C7.1 _, claim_C7.2.1 "net down" _,
    claim_C7.2.2 ["1"] "bad xml" _ (by decide) rfl⟩

/-- C9 (counterexample): the claim says an entry with the separator
contributes the tuple of its dash-separated, whitespace-stripped
parts; but the code strips only the whole entry, not each part, so
`"CHEMICAL - DISEASE"` yields `("CHEMICAL ", " DISEASE")`, whose parts
still carry whitespace, not `("CHEMICAL", "DISEASE")`. -/
theorem claim_C9_counterexample :
    parse_allowed_relationships "CHEMICAL - DISEASE" = [["CHEMICAL ", " DISEASE"]]
    ∧ ["CHEMICAL ", " DISEASE"] ≠ ["CHEMICAL", "DISEASE"] := by
  exact ⟨by decide, by decide⟩

/-- C9 (amended): parsing never fails; every entry lacking `-` is
silently skipped (every parsed tuple comes from an entry containing
`-`), and every entry containing `-` contributes the tuple obtained by
whitespace-stripping the whole entry and splitting it on `-` (parts
adjacent to an interior dash keep their whitespace). -/
theorem claim_C9_amended (input : String) :
    (∀ t ∈ parse_allowed_relationships input,
        ∃ rel ∈ pySplit ',' input,
          pyContainsChar rel '-' = true ∧ t = pySplit '-' (pyStrip rel))
    ∧ (∀ rel ∈ pySplit ',' input, pyContainsChar rel '-' = true →
        pySplit '-' (pyStrip rel) ∈ parse_allowed_relationships input) := by
  constructor
  · intro t ht
    simp only [parse_allowed_relationships, List.mem_map, List.mem_filter] at ht
    obtain ⟨rel, ⟨hrel, hdash⟩, rfl⟩ := ht
    exact ⟨rel, hrel, hdash, rfl⟩
  · intro rel hrel hdash
    simp only [parse_allowed_relationships, List.mem_map]
    exact ⟨rel, List.mem_filter.mpr ⟨hrel, hdash⟩, rfl⟩

/-- Witness for C9 at the concrete input `"A-B, C"`: the dash-bearing
entry `"A-B"` contributes `["A", "B"]`. -/
theorem claim_C9_witness :
    pySplit '-' (pyStrip "A-B") ∈ parse_allowed_relationships "A-B, C"
    ∧ pySplit '-' (pyStrip "A-B") = ["A", "B"] :=
  ⟨(claim_C9_amended "A-B, C").2 "A-B" (by decide) (by decide), by decide⟩

/-- C3: for a mention list of length n the relationship builder
examines exactly C(n,2) candidate pairs (combinations of positions
without repetition), and emits an edge exactly for the pairs whose
(type, type) combination matches the allow-list in either order; on
the mention list [(a,CHEMICAL), (b,DISEASE), (c,CHEMICAL)] with
allow-list {(CHEMICAL,DISEASE)} exactly the two edges a-b and b-c are
produced, with no a-c edge. -/
theorem claim_C3 :
    (∀ (entities allowed : List (String × String)),
        (combinations2 entities).length = entities.length.choose 2
        ∧ ∀ e, e ∈ rowEdges entities allowed ↔
            ∃ p ∈ combinations2 entities, allowedPair allowed p.1.2 p.2.2 = true ∧
              e = ⟨p.1.1, p.2.1, p.1.2 ++ "_to_" ++ p.2.2⟩)
    ∧ rowEdges [("a", "CHEMICAL"), ("b", "DISEASE"), ("c", "CHEMICAL")]
        [("CHEMICAL", "DISEASE")] =
        [⟨"a", "b", "CHEMICAL_to_DISEASE"⟩, ⟨"b", "c", "DISEASE_to_CHEMICAL"⟩] :=
  ⟨fun entities allowed =>
    ⟨length_combinations2 entities, fun e => mem_rowEdges entities allowed e⟩,
   by decide⟩

/-- Witness for C3: a concrete edge obtained through the pair
characterization at the example mention list. -/
theorem claim_C3_witness :
    (combinations2 [("a", "CHEMICAL"), ("b", "DISEASE"), ("c", "CHEMICAL")]).length
      = [("a", "CHEMICAL"), ("b", "DISEASE"), ("c", "CHEMICAL")].length.choose 2
    ∧ (⟨"a", "b", "CHEMICAL_to_DISEASE"⟩ : EdgeRow) ∈
        rowEdges [("a", "CHEMICAL"), ("b", "DISEASE"), ("c", "CHEMICAL")]
          [("CHEMICAL", "DISEASE")] :=
  ⟨(claim_C3.1 _ [("CHEMICAL", "DISEASE")]).1,
   ((claim_C3.1 _ _).2 _).mpr
     ⟨(("a", "CHEMICAL"), ("b", "DISEASE")), by decide, by decide, by decide⟩⟩

/-- C6: every emitted edge is labelled `{type_of_first}_to_{type_of_second}`
with first/second in the order the two mentions occur in the pairwise
combination enumeration (list-position order), not a canonical order:
with mentions [(b,DISEASE), (a,CHEMICAL)] the single edge is labelled
DISEASE_to_CHEMICAL. -/
theorem claim_C6 :
    (∀ (entities allowed : List (String × String)) (e : EdgeRow),
        e ∈ rowEdges entities allowed →
          ∃ m1 m2 : String × String,
            List.Sublist [m1, m2] entities
            ∧ allowedPair allowed m1.2 m2.2 = true
            ∧ e.source = m1.1 ∧ e.target = m2.1
            ∧ e.edge = m1.2 ++ "_to_" ++ m2.2)
    ∧ rowEdges [("b", "DISEASE"), ("a", "CHEMICAL")] [("CHEMICAL", "DISEASE")] =
        [⟨"b", "a", "DISEASE_to_CHEMICAL"⟩] := by
  constructor
  · intro entities allowed e he
    obtain ⟨p, hp, hall, rfl⟩ := (mem_rowEdges entities allowed e).mp he
    exact ⟨p.1, p.2, (mem_combinations2 entities p).mp hp, hall, rfl, rfl, rfl⟩
  · decide

/-- Witness for C6 at the two-mention example list. -/
theorem claim_C6_witness :
    ∃ m1 m2 : String × String,
      List.Sublist [m1, m2] [("b", "DISEASE"), ("a", "CHEMICAL")]
      ∧ allowedPair [("CHEMICAL", "DISEASE")] m1.2 m2.2 = true
      ∧ (⟨"b", "a", "DISEASE_to_CHEMICAL"⟩ : EdgeRow).source = m1.1
      ∧ (⟨"b", "a", "DISEASE_to_CHEMICAL"⟩ : EdgeRow).target = m2.1
      ∧ (⟨"b", "a", "DISEASE_to_CHEMICAL"⟩ : EdgeRow).edge = m1.2 ++ "_to_" ++ m2.2 :=
  claim_C6.1 [("b", "DISEASE"), ("a", "CHEMICAL")] [("CHEMICAL", "DISEASE")]
    ⟨"b", "a", "DISEASE_to_CHEMICAL"⟩ (by decide)

/-- C8: an edge row whose source or target is not an already-added
node is silently skipped (an edge is kept iff both endpoints are keys
of the entity mapping), and with an empty edge list the assembler
still produces one node per entity-mapping key and zero edges. -/
theorem claim_C8 :
    (∀ (kg : List EdgeRow) (ent : EntityMap) (row : EdgeRow),
        row ∈ (visualize_graph_interactive kg ent).edges ↔
          row ∈ kg ∧ row.source ∈ ent.map Prod.fst ∧ row.target ∈ ent.map Prod.fst)
    ∧ (∀ ent : EntityMap,
        (visualize_graph_interactive [] ent).nodes =
          ent.map (fun p => ⟨p.1, p.2.titles, nodeColor p.2.type⟩)
        ∧ (visualize_graph_interactive [] ent).edges = []) := by
  constructor
  · intro kg ent row
    simp [visualize_graph_interactive, List.mem_filter, List.map_map, and_assoc]
  · intro ent
    exact ⟨rfl, rfl⟩

/-- Witness for C8: a dangling edge (target "z" is not a node) is
dropped, and the empty edge list still yields the node list. -/
theorem claim_C8_witness :
    ¬ ((⟨"a", "z", "CHEMICAL_to_DISEASE"⟩ : EdgeRow) ∈
        (visualize_graph_interactive [⟨"a", "z", "CHEMICAL_to_DISEASE"⟩]
          [("a", ⟨∅, "CHEMICAL"⟩)]).edges)
    ∧ (visualize_graph_interactive [] [("a", ⟨∅, "CHEMICAL"⟩)]).nodes =
        [("a", (⟨∅, "CHEMICAL"⟩ : EntityInfo))].map
          (fun p => ⟨p.1, p.2.titles, nodeColor p.2.type⟩) :=
  ⟨fun h => by
      have h' := (claim_C8.1 [⟨"a", "z", "CHEMICAL_to_DISEASE"⟩]
        [("a", ⟨∅, "CHEMICAL"⟩)] ⟨"a", "z", "CHEMICAL_to_DISEASE"⟩).mp h
      exact absurd h'.2.2 (by decide),
   (claim_C8.2 [("a", ⟨∅, "CHEMICAL"⟩)]).1⟩

/-- C1 (counterexample): the claim says the stored type is the one of
the most recent encounter (last-write-wins); but the code sets the
type only when the key is first created, so after "x" is seen as
CHEMICAL in one abstract and as DISEASE in a later one, the stored
type is CHEMICAL, not the most recent DISEASE. -/
theorem claim_C1_counterexample :
    ((process_abstracts_from_excel
        [⟨[⟨"x", "CHEMICAL"⟩], "T1"⟩, ⟨[⟨"x", "DISEASE"⟩], "T2"⟩]
        ["CHEMICAL", "DISEASE"] []).2.lookup "x").map EntityInfo.type
      = some "CHEMICAL"
    ∧ some "CHEMICAL" ≠ some "DISEASE" := by
  exact ⟨by decide, by decide⟩

/-- C1 (amended): in the corpus-wide entity mapping built by an
extraction run, every stored entry carries the type observed on the
FIRST encounter of its text (the type is set only when the key is
created, first-write-wins), while the title set is exactly the union
of the titles over all encounters of that text. -/
theorem claim_C1_amended (rows : List AbstractRow) (types : List String)
    (allowed : List (String × String)) (k : String) (info : EntityInfo)
    (h : (process_abstracts_from_excel rows types allowed).2.lookup k = some info) :
    firstTypeIn (mentionStream rows types) k = some info.type
    ∧ info.titles = titlesIn (mentionStream rows types) k := by
  rw [process_abstracts_eq] at h
  simp only [lookup_foldStream, List.lookup_nil] at h
  cases hf : firstTypeIn (mentionStream rows types) k with
  | none => rw [hf] at h; cases h
  | some ty =>
    rw [hf] at h
    have h' : (⟨titlesIn (mentionStream rows types) k, ty⟩ : EntityInfo) = info :=
      Option.some.inj h
    exact ⟨by rw [← h'], by rw [← h']⟩

/-- Witness for C1 at the two-abstract run where "x" is first CHEMICAL
then DISEASE. -/
theorem claim_C1_witness :
    firstTypeIn (mentionStream
        [⟨[⟨"x", "CHEMICAL"⟩], "T1"⟩, ⟨[⟨"x", "DISEASE"⟩], "T2"⟩]
        ["CHEMICAL", "DISEASE"]) "x"
      = some (EntityInfo.type ⟨insert "T2" (insert "T1" ∅), "CHEMICAL"⟩)
    ∧ EntityInfo.titles ⟨insert "T2" (insert "T1" ∅), "CHEMICAL"⟩ =
        titlesIn (mentionStream
          [⟨[⟨"x", "CHEMICAL"⟩], "T1"⟩, ⟨[⟨"x", "DISEASE"⟩], "T2"⟩]
          ["CHEMICAL", "DISEASE"]) "x" :=
  claim_C1_amended
    [⟨[⟨"x", "CHEMICAL"⟩], "T1"⟩, ⟨[⟨"x", "DISEASE"⟩], "T2"⟩]
    ["CHEMICAL", "DISEASE"] [] "x" ⟨insert "T2" (insert "T1" ∅), "CHEMICAL"⟩ rfl

/-- C5: an abstract with zero qualifying spans contributes nothing to
the run (removing it leaves both the edge list and the entity mapping
unchanged); and when the same entity text occurs with an allowed type
in two documents, the stored title set contains both titles. -/
theorem claim_C5 :
    (∀ (pre post : List AbstractRow) (r : AbstractRow) (types : List String)
        (allowed : List (String × String)),
        get_bc5cdr_entities r.spans types = [] →
        process_abstracts_from_excel (pre ++ r :: post) types allowed =
          process_abstracts_from_excel (pre ++ post) types allowed)
    ∧ (∀ (rows : List AbstractRow) (types : List String)
        (allowed : List (String × String)) (r1 r2 : AbstractRow) (x ty1 ty2 : String),
        r1 ∈ rows → r2 ∈ rows →
        (x, ty1) ∈ get_bc5cdr_entities r1.spans types →
        (x, ty2) ∈ get_bc5cdr_entities r2.spans types →
        ∃ info, (process_abstracts_from_excel rows types allowed).2.lookup x = some info
          ∧ r1.title ∈ info.titles ∧ r2.title ∈ info.titles) := by
  constructor
  · intro pre post r types allowed h
    rw [process_abstracts_eq, process_abstracts_eq]
    simp [mentionStream, List.flatMap_append, List.flatMap_cons, h, rowEdges, combinations2]
  · intro rows types allowed r1 r2 x ty1 ty2 hr1 hr2 hx1 hx2
    have hm1 := mem_mentionStream rows types r1 x ty1 hr1 hx1
    have hm2 := mem_mentionStream rows types r2 x ty2 hr2 hx2
    obtain ⟨ty', hty'⟩ := Option.isSome_iff_exists.mp
      (firstTypeIn_isSome_of_mem _ x ty1 r1.title hm1)
    refine ⟨⟨titlesIn (mentionStream rows types) x, ty'⟩, ?_,
      mem_titlesIn _ x ty1 r1.title hm1, mem_titlesIn _ x ty2 r2.title hm2⟩
    rw [process_abstracts_eq]
    simp only [lookup_foldStream, List.lookup_nil, hty']

/-- Witness for C5: a span-free abstract dropped from a one-abstract
run, and "aspirin" occurring in two documents whose stored title set
holds both titles. -/
theorem claim_C5_witness :
    process_abstracts_from_excel ([] ++ (⟨[⟨"q", "OTHER"⟩], "T0"⟩ :: []))
        ["CHEMICAL"] [] =
      process_abstracts_from_excel ([] ++ []) ["CHEMICAL"] []
    ∧ ∃ info,
        (process_abstracts_from_excel
            [⟨[⟨"Aspirin", "CHEMICAL"⟩], "T1"⟩, ⟨[⟨"ASPIRIN", "CHEMICAL"⟩], "T2"⟩]
            ["CHEMICAL"] []).2.lookup "aspirin" = some info
        ∧ (⟨[⟨"Aspirin", "CHEMICAL"⟩], "T1"⟩ : AbstractRow).title ∈ info.titles
        ∧ (⟨[⟨"ASPIRIN", "CHEMICAL"⟩], "T2"⟩ : AbstractRow).title ∈ info.titles :=
  ⟨claim_C5.1 [] [] ⟨[⟨"q", "OTHER"⟩], "T0"⟩ ["CHEMICAL"] [] (by decide),
   claim_C5.2
     [⟨[⟨"Aspirin", "CHEMICAL"⟩], "T1"⟩, ⟨[⟨"ASPIRIN", "CHEMICAL"⟩], "T2"⟩]
     ["CHEMICAL"] [] ⟨[⟨"Aspirin", "CHEMICAL"⟩], "T1"⟩ ⟨[⟨"ASPIRIN", "CHEMICAL"⟩], "T2"⟩
     "aspirin" "CHEMICAL" "CHEMICAL"
     (by decide) (by decide) (by decide) (by decide)⟩

/-- C10: every edge row produced by an extraction run has both its
source and its target present as keys of the simultaneously returned
entity mapping; consequently the graph assembler's node-existence
filter keeps every edge of this pipeline. -/
theorem claim_C10 (rows : List AbstractRow) (types : List String)
    (allowed : List (String × String)) :
    (∀ e ∈ (process_abstracts_from_excel rows types allowed).1,
        ((process_abstracts_from_excel rows types allowed).2.lookup e.source).isSome
        ∧ ((process_abstracts_from_excel rows types allowed).2.lookup e.target).isSome)
    ∧ (visualize_graph_interactive
          (process_abstracts_from_excel rows types allowed).1
          (process_abstracts_from_excel rows types allowed).2).edges
        = (process_abstracts_from_excel rows types allowed).1 := by
  have hmem : ∀ e ∈ (process_abstracts_from_excel rows types allowed).1,
      ((process_abstracts_from_excel rows types allowed).2.lookup e.source).isSome
      ∧ ((process_abstracts_from_excel rows types allowed).2.lookup e.target).isSome := by
    intro e he
    rw [process_abstracts_eq] at he
    simp only [List.mem_flatMap] at he
    obtain ⟨r, hr, hre⟩ := he
    obtain ⟨p, hp, _, rfl⟩ :=
      (mem_rowEdges (get_bc5cdr_entities r.spans types) allowed _).mp hre
    have hsub := (mem_combinations2 (get_bc5cdr_entities r.spans types) p).mp hp
    have h1 : p.1 ∈ get_bc5cdr_entities r.spans types :=
      hsub.subset (List.mem_cons_self _ _)
    have h2 : p.2 ∈ get_bc5cdr_entities r.spans types :=
      hsub.subset (List.mem_cons_of_mem _ (List.mem_cons_self _ _))
    constructor
    · exact lookup_final_isSome rows types allowed p.1.1 p.1.2 r.title
        (mem_mentionStream rows types r p.1.1 p.1.2 hr h1)
    · exact lookup_final_isSome rows types allowed p.2.1 p.2.2 r.title
        (mem_mentionStream rows types r p.2.1 p.2.2 hr h2)
  refine ⟨hmem, ?_⟩
  simp only [visualize_graph_interactive, List.map_map]
  rw [List.filter_eq_self]
  intro e he
  have h := hmem e he
  rw [lookup_isSome_iff_mem_keys, lookup_isSome_iff_mem_keys] at h
  have hcomp : (GraphNode.id ∘ fun p : String × EntityInfo =>
      ({ id := p.1, tooltip := p.2.titles, color := nodeColor p.2.type } : GraphNode))
      = Prod.fst := rfl
  rw [hcomp]
  simp only [Bool.and_eq_true]
  exact ⟨by simpa using h.1, by simpa using h.2⟩

/-- Witness for C10 at a concrete two-mention run. -/
theorem claim_C10_witness :
    (visualize_graph_interactive
        (process_abstracts_from_excel
          [⟨[⟨"a", "CHEMICAL"⟩, ⟨"b", "DISEASE"⟩], "T1"⟩]
          ["CHEMICAL", "DISEASE"] [("CHEMICAL", "DISEASE")]).1
        (process_abstracts_from_excel
          [⟨[⟨"a", "CHEMICAL"⟩, ⟨"b", "DISEASE"⟩], "T1"⟩]
          ["CHEMICAL", "DISEASE"] [("CHEMICAL", "DISEASE")]).2).edges
      = (process_abstracts_from_excel
          [⟨[⟨"a", "CHEMICAL"⟩, ⟨"b", "DISEASE"⟩], "T1"⟩]
          ["CHEMICAL", "DISEASE"] [("CHEMICAL", "DISEASE")]).1 :=
  (claim_C10 [⟨[⟨"a", "CHEMICAL"⟩, ⟨"b", "DISEASE"⟩], "T1"⟩]
    ["CHEMICAL", "DISEASE"] [("CHEMICAL", "DISEASE")]).2

end Bionext
